import Mathlib

/-!
Verification of the Hemlock documentation build script (`build_docs.py`).

The script has two algorithmic cores, both embedded here:
* the build-time collector / navigation assembler (`collect_docs`, the
  navigation loop of `generate_html`, and the embedded `PAGES` JSON block);
* the runtime viewer embedded in the generated artifact: a line-oriented
  markdown renderer (`parseMarkdown`, `processInlineMarkdown`, `makeId`,
  `escapeHtml`) and a page router (`loadPage`, the hashchange handler and
  the initial-load sequence).

Strings are modelled as Lean `String`s (lists of characters); the JavaScript
string primitives used by the source (`startsWith`, `trim`, `trimEnd`,
`substring`, `split`) are re-implemented below over `String.data` so that all
definitions are executable by the kernel.  Character classes of the JS regexes
(`\w`, `\s`) are modelled over their ASCII meaning, which is the only part the
source exercises.
-/

namespace BuildDocs

/-- JS whitespace (the ASCII part of the `\s` class and of `String.trim`). -/
def isJsSpace (c : Char) : Bool :=
  c == ' ' || c == '\t' || c == '\n' || c == '\r' || c == '\x0b' || c == '\x0c'

/-- The `\w` regex class: ASCII letters, digits, underscore. -/
def isWordChar (c : Char) : Bool :=
  c.isAlpha || c.isDigit || c == '_'

def jsTrimL (l : List Char) : List Char :=
  ((l.dropWhile isJsSpace).reverse.dropWhile isJsSpace).reverse

/-- JS `String.prototype.trim`. -/
def jsTrim (s : String) : String := ⟨jsTrimL s.data⟩

/-- JS `String.prototype.trimEnd`. -/
def jsTrimEnd (s : String) : String := ⟨(s.data.reverse.dropWhile isJsSpace).reverse⟩

/-- JS `s.startsWith(pre)`. -/
def startsWithS (s pre : String) : Bool := pre.data.isPrefixOf s.data

/-- JS `s.endsWith(suf)`. -/
def endsWithS (s suf : String) : Bool := suf.data.isSuffixOf s.data

/-- JS `s.substring(n)` (for ASCII content, code-unit = character). -/
def dropS (s : String) (n : Nat) : String := ⟨s.data.drop n⟩

/-- JS `s.substring(0, s.length - n)` as used to cut a trailing tag. -/
def dropRightS (s : String) (n : Nat) : String := ⟨s.data.take (s.data.length - n)⟩

/-! ### Inline markdown formatting (`processInlineMarkdown`)

The source applies four global regex replacements in order:
bold ``/\*\*(.+?)\*\*/g``, italic ``/\*([^*]+)\*/g``, inline code
``/`([^`]+)`/g`` and links ``/\[([^\]]+)\]\(([^)]+)\)/g``.  Each is embedded
as a left-to-right scanner that reproduces the regex engine's leftmost-match
behaviour; the recursion is driven by a fuel argument (the input length is
always sufficient fuel, since every step consumes at least one character). -/

/-- Split at the first occurrence of `**`: `l = b ++ [*,*] ++ a ↦ some (b, a)`. -/
def splitDD : List Char → Option (List Char × List Char)
  | [] => none
  | [_] => none
  | c :: d :: rest =>
    if c = '*' ∧ d = '*' then some ([], rest)
    else (splitDD (d :: rest)).map (fun p => (c :: p.1, p.2))

/-- Split at the first occurrence of `**` at index ≥ 1 (the lazy `.+?` needs a
nonempty inner text before the closing delimiter). -/
def splitDDtail : List Char → Option (List Char × List Char)
  | [] => none
  | c :: rest => (splitDD rest).map (fun p => (c :: p.1, p.2))

/-- One global pass of ``/\*\*(.+?)\*\*/g → <strong>$1</strong>``. -/
def boldAux : Nat → List Char → List Char
  | 0, cs => cs
  | fuel + 1, cs =>
    match splitDD cs with
    | none => cs
    | some (pre, rest) =>
      match splitDDtail rest with
      | none => cs
      | some (inner, after) =>
        pre ++ "<strong>".data ++ inner ++ "</strong>".data ++ boldAux fuel after

/-- Split before the first occurrence of `stop` (like `List.span (· ≠ stop)`),
keeping the stop character at the head of the second component. -/
def breakOn (stop : Char) : List Char → (List Char × List Char)
  | [] => ([], [])
  | c :: rest =>
    if c = stop then ([], c :: rest)
    else
      let p := breakOn stop rest
      (c :: p.1, p.2)

/-- One global pass of ``/\*([^*]+)\*/g → <em>$1</em>``. -/
def italicAux : Nat → List Char → List Char
  | 0, cs => cs
  | _ + 1, [] => []
  | fuel + 1, c :: rest =>
    if c = '*' then
      match breakOn '*' rest with
      | (_, []) => c :: rest
      | (inner, _ :: rest2) =>
        if inner.isEmpty then '*' :: italicAux fuel rest
        else "<em>".data ++ inner ++ "</em>".data ++ italicAux fuel rest2
    else c :: italicAux fuel rest

/-- One global pass of ``/`([^`]+)`/g → <code>$1</code>``. -/
def codeAux : Nat → List Char → List Char
  | 0, cs => cs
  | _ + 1, [] => []
  | fuel + 1, c :: rest =>
    if c = '`' then
      match breakOn '`' rest with
      | (_, []) => c :: rest
      | (inner, _ :: rest2) =>
        if inner.isEmpty then '`' :: codeAux fuel rest
        else "<code>".data ++ inner ++ "</code>".data ++ codeAux fuel rest2
    else c :: codeAux fuel rest

/-- One global pass of ``/\[([^\]]+)\]\(([^)]+)\)/g → <a href="$2">$1</a>``. -/
def linkAux : Nat → List Char → List Char
  | 0, cs => cs
  | _ + 1, [] => []
  | fuel + 1, c :: rest =>
    if c = '[' then
      match breakOn ']' rest with
      | (txt, _ :: rest1) =>
        if txt.isEmpty then '[' :: linkAux fuel rest
        else
          match rest1 with
          | '(' :: rest2 =>
            match breakOn ')' rest2 with
            | (url, _ :: rest3) =>
              if url.isEmpty then '[' :: linkAux fuel rest
              else
                "<a href=\"".data ++ url ++ "\">".data ++ txt ++ "</a>".data ++
                  linkAux fuel rest3
            | (_, []) => '[' :: linkAux fuel rest
          | _ => '[' :: linkAux fuel rest
      | (_, []) => '[' :: linkAux fuel rest
    else c :: linkAux fuel rest

def processInlineMarkdownL (cs : List Char) : List Char :=
  let s1 := boldAux cs.length cs
  let s2 := italicAux s1.length s1
  let s3 := codeAux s2.length s2
  linkAux s3.length s3

/-- `processInlineMarkdown` from the generated viewer script: bold, then
italic, then inline code, then links. -/
def processInlineMarkdown (text : String) : String :=
  ⟨processInlineMarkdownL text.data⟩

/-! ### Anchor identifiers (`makeId`) -/

/-- `/\s+/g → '-'`: collapse each maximal whitespace run to one hyphen. -/
def collapseWsL : List Char → List Char
  | [] => []
  | [c] => if isJsSpace c then ['-'] else [c]
  | c :: d :: rest =>
    if isJsSpace c then
      if isJsSpace d then collapseWsL (d :: rest) else '-' :: collapseWsL (d :: rest)
    else c :: collapseWsL (d :: rest)

/-- `/^-+|-+$/g → ''`: strip leading and trailing hyphen runs. -/
def trimDashL (l : List Char) : List Char :=
  ((l.dropWhile (fun c => c == '-')).reverse.dropWhile (fun c => c == '-')).reverse

def makeIdL (cs : List Char) : List Char :=
  trimDashL (collapseWsL
    ((cs.map Char.toLower).filter (fun c => isWordChar c || isJsSpace c || c == '-')))

/-- `makeId` from the viewer script: lower-case, delete every character
outside `[\w\s-]`, collapse whitespace runs to `-`, trim hyphens. -/
def makeId (text : String) : String := ⟨makeIdL text.data⟩

/-- The anchor-id function as the specification describes it: identical
pipeline, but the kept character class is "letter, digit, existing hyphen, or
whitespace" — without underscore.  Used to compare the spec's description
against the code's `[^\w\s-]` deletion class. -/
def makeIdClaimed (text : String) : String :=
  ⟨trimDashL (collapseWsL
    ((text.data.map Char.toLower).filter
      (fun c => c.isAlpha || c.isDigit || c == '-' || isJsSpace c)))⟩

/-- The amended description: lower-case, delete every character that is not a
letter, digit, underscore, existing hyphen, or whitespace, collapse whitespace
runs to a single hyphen, trim leading/trailing hyphens. -/
def makeIdAmended (text : String) : String :=
  ⟨trimDashL (collapseWsL
    ((text.data.map Char.toLower).filter
      (fun c => c.isAlpha || c.isDigit || c == '_' || c == '-' || isJsSpace c)))⟩

/-! ### HTML escaping (`escapeHtml`)

The source routes the text through a detached DOM node
(`div.textContent = text; return div.innerHTML`), whose serialization escapes
exactly `&`, `<` and `>` in text content. -/

def escapeHtmlChar (c : Char) : List Char :=
  if c == '&' then "&amp;".data
  else if c == '<' then "&lt;".data
  else if c == '>' then "&gt;".data
  else [c]

def escapeHtml (text : String) : String :=
  ⟨text.data.foldr (fun c acc => escapeHtmlChar c ++ acc) []⟩

/-! ### The line-oriented markdown renderer (`parseMarkdown`)

The renderer is a fold of a per-line step function over the `'\n'`-split
input, carrying the accumulator state declared at the top of the JS
function (`inCodeBlock` / `codeBlockContent` / `codeBlockLang`,
`inList` / `listContent`, `inBlockquote` / `blockquoteContent`, and the
output string `html`). -/

structure RState where
  html : String
  inCodeBlock : Bool
  codeBlockContent : String
  codeBlockLang : String
  inList : Bool
  listContent : String
  inBlockquote : Bool
  blockquoteContent : String
deriving Repr, DecidableEq

def initRS : RState :=
  { html := "", inCodeBlock := false, codeBlockContent := "", codeBlockLang := "",
    inList := false, listContent := "", inBlockquote := false, blockquoteContent := "" }

/-- `flushList`: emit the accumulated list if one is open and nonempty
(JS truthiness of `listContent`). -/
def flushList (st : RState) : RState :=
  if st.inList ∧ st.listContent ≠ "" then
    { st with
        html := st.html ++ "<ul>\n" ++ st.listContent ++ "</ul>\n"
        listContent := ""
        inList := false }
  else st

/-- `flushBlockquote`: emit the accumulated blockquote if open and nonempty. -/
def flushBlockquote (st : RState) : RState :=
  if st.inBlockquote ∧ st.blockquoteContent ≠ "" then
    { st with
        html := st.html ++ "<blockquote>" ++
          processInlineMarkdown (jsTrim st.blockquoteContent) ++ "</blockquote>\n"
        blockquoteContent := ""
        inBlockquote := false }
  else st

/-- The heading emission shared by the four `#`…`####` branches
(template ``<hN class="section-anchor" id="${id}">…</hN>``). -/
def emitHeading (st : RState) (tag : String) (text : String) : RState :=
  { st with html := st.html ++ "<" ++ tag ++ " class=\"section-anchor\" id=\"" ++
      makeId text ++ "\">" ++ processInlineMarkdown text ++ "</" ++ tag ++ ">\n" }

/-- The body of the `for` loop over lines, with the branch order of the
source: fence toggle; inside-fence accumulation; headings h1–h4; horizontal
rule; blockquote start / blockquote-closing blank line; list item start /
list continuation / list-closing blank line; blank line; paragraph. -/
def step (st : RState) (line : String) : RState :=
  if startsWithS line "```" then
    if st.inCodeBlock then
      { st with
          html := st.html ++ "<pre><code>" ++ escapeHtml st.codeBlockContent ++
            "</code></pre>\n"
          codeBlockContent := ""
          inCodeBlock := false }
    else
      let st1 := flushBlockquote (flushList st)
      { st1 with
          inCodeBlock := true
          codeBlockLang := jsTrim (dropS line 3) }
  else if st.inCodeBlock then
    { st with codeBlockContent := st.codeBlockContent ++ line ++ "\n" }
  else if startsWithS line "# " then
    emitHeading (flushBlockquote (flushList st)) "h1" (jsTrim (dropS line 2))
  else if startsWithS line "## " then
    emitHeading (flushBlockquote (flushList st)) "h2" (jsTrim (dropS line 3))
  else if startsWithS line "### " then
    emitHeading (flushBlockquote (flushList st)) "h3" (jsTrim (dropS line 4))
  else if startsWithS line "#### " then
    emitHeading (flushBlockquote (flushList st)) "h4" (jsTrim (dropS line 5))
  else if jsTrim line == "---" then
    let st1 := flushBlockquote (flushList st)
    { st1 with html := st1.html ++ "<hr>\n" }
  else if startsWithS line "> " then
    let st1 := flushList st
    { st1 with
        blockquoteContent := st1.blockquoteContent ++ dropS line 2 ++ " "
        inBlockquote := true }
  else if st.inBlockquote && jsTrim line == "" then
    flushBlockquote st
  else if startsWithS line "- " || startsWithS line "* " then
    let st1 := flushBlockquote st
    { st1 with
        listContent := st1.listContent ++ "<li>" ++
          processInlineMarkdown (jsTrim (dropS line 2)) ++ "</li>\n"
        inList := true }
  else if st.inList && jsTrim line != "" && !startsWithS line "#" then
    let lc := jsTrimEnd st.listContent
    if endsWithS lc "</li>" then
      { st with listContent := dropRightS lc 5 ++ " " ++
          processInlineMarkdown (jsTrim line) ++ "</li>\n" }
    else
      { st with listContent := lc }
  else if st.inList && jsTrim line == "" then
    flushList st
  else if jsTrim line == "" then
    flushBlockquote (flushList st)
  else
    let st1 := flushBlockquote (flushList st)
    { st1 with html := st1.html ++ "<p>" ++ processInlineMarkdown line ++ "</p>\n" }

/-- JS `md.split('\n')`. -/
def splitLinesGo : List Char → List Char → List String
  | acc, [] => [⟨acc.reverse⟩]
  | acc, '\n' :: rest => (⟨acc.reverse⟩ : String) :: splitLinesGo [] rest
  | acc, c :: rest => splitLinesGo (c :: acc) rest

def splitLines (s : String) : List String := splitLinesGo [] s.data

/-- The end-of-input epilogue of `parseMarkdown`: `flushList();
flushBlockquote(); return html;` (an open code fence is not flushed). -/
def renderFinalize (st : RState) : String :=
  (flushBlockquote (flushList st)).html

/-- `parseMarkdown` from the viewer script. -/
def parseMarkdown (md : String) : String :=
  renderFinalize ((splitLines md).foldl step initRS)

/-! ### Fragments and the navigation assembler (`collect_docs` / `generate_html`)

A documentation fragment as stored in the `docs` dictionary of
`collect_docs`: value record plus the display-title key.  `sec` models
`info.get('section', '')`, so the empty string stands for "no section". -/

structure DocInfo where
  id : String
  content : String
  order : Nat
  sec : String
deriving Repr, DecidableEq

/-- Python `dict` assignment `m[k] = v`: overwrite in place if the key
exists (keeping its position), append otherwise. -/
def pyDictInsert (m : List (String × DocInfo)) (k : String) (v : DocInfo) :
    List (String × DocInfo) :=
  match m with
  | [] => [(k, v)]
  | (k1, v1) :: rest => if k1 = k then (k, v) :: rest else (k1, v1) :: pyDictInsert rest k v

/-- Python `dict` lookup `m[k]`. -/
def pyDictLookup (m : List (String × DocInfo)) (k : String) : Option DocInfo :=
  match m with
  | [] => none
  | (k1, v1) :: rest => if k1 = k then some v1 else pyDictLookup rest k

/-- Python `str.title()` (over letters): upper-case a letter that does not
follow a letter, lower-case the others. -/
def pyTitleGo : Bool → List Char → List Char
  | _, [] => []
  | prevAlpha, c :: rest =>
    if c.isAlpha then
      (if prevAlpha then c.toLower else c.toUpper) :: pyTitleGo true rest
    else c :: pyTitleGo false rest

/-- `section.replace('-', ' ').title()` — the displayed group title. -/
def sectionTitleStr (s : String) : String :=
  ⟨pyTitleGo false (s.data.map (fun c => if c == '-' then ' ' else c))⟩

/-- Split at the first occurrence of the separator `sep` (assumed nonempty):
`l = b ++ sep ++ a ↦ some (b, a)`. -/
def splitAtSub (sep : List Char) : List Char → Option (List Char × List Char)
  | [] => none
  | c :: rest =>
    if sep.isPrefixOf (c :: rest) then some ([], (c :: rest).drop sep.length)
    else (splitAtSub sep rest).map (fun p => (c :: p.1, p.2))

def arrowSep : List Char := " → ".data

def navTitleOfL : Nat → List Char → List Char
  | 0, l => l
  | fuel + 1, l =>
    match splitAtSub arrowSep l with
    | none => l
    | some (_, rest) => navTitleOfL fuel rest

/-- `title.split(' → ')[-1] if ' → ' in title else title`. -/
def navTitleOf (t : String) : String := ⟨navTitleOfL t.data.length t.data⟩

def openDivStr : String := "<div class=\"nav-section\">"

def closeDivStr : String := "</div>"

def titleDivStr (s : String) : String :=
  "<div class=\"nav-section-title\">" ++ sectionTitleStr s ++ "</div>"

def navLinkStr (pageId title : String) : String :=
  "<a href=\"#" ++ pageId ++ "\" class=\"nav-link\" data-page=\"" ++ pageId ++ "\">" ++
    navTitleOf title ++ "</a>"

/-- The `nav_items` loop of `generate_html`, with `cur` playing
`current_section` (`none` = Python `None`; the anonymous branch stores the
literal `'main'`).  The first branch is `section and section != current_section`
(a nonempty section always differs from `None`); the trailing item is the
final `if current_section:` close (Python truthiness). -/
def navAuxGo : Option String → List (String × DocInfo) → List String
  | cur, [] =>
    match cur with
    | none => []
    | some s => if s = "" then [] else [closeDivStr]
  | cur, (title, info) :: rest =>
    if info.sec ≠ "" ∧ cur ≠ some info.sec then
      (if cur = none then [] else [closeDivStr]) ++
        openDivStr :: titleDivStr info.sec :: navLinkStr info.id title ::
          navAuxGo (some info.sec) rest
    else if info.sec = "" ∧ cur ≠ none then
      closeDivStr :: navLinkStr info.id title :: navAuxGo none rest
    else if info.sec = "" ∧ cur = none then
      openDivStr :: navLinkStr info.id title :: navAuxGo (some "main") rest
    else
      navLinkStr info.id title :: navAuxGo cur rest

/-- The navigation markup of `generate_html`, as the list of appended
`nav_items` strings. -/
def navItems (docs : List (String × DocInfo)) : List String := navAuxGo none docs

/-- Number of navigation groups: occurrences of the group-opening div. -/
def groupCount (items : List String) : Nat := items.countP (fun x => x == openDivStr)

def secChanges : String → List String → Nat
  | _, [] => 0
  | c, s :: rest => (if s == c then 0 else 1) + secChanges s rest

/-- Number of maximal contiguous runs of equal section value ("" counts as a
value of its own). -/
def runCount : List String → Nat
  | [] => 0
  | s :: rest => 1 + secChanges s rest

def docSections (docs : List (String × DocInfo)) : List String :=
  docs.map (fun p => p.2.sec)

/-- The spec-side rendering of one run's opening: a group-opening div, a
title div when the run has a section, and the first entry's link. -/
def runOpenItems (title : String) (info : DocInfo) : List String :=
  (if info.sec = "" then [openDivStr] else [openDivStr, titleDivStr info.sec]) ++
    [navLinkStr info.id title]

/-- Spec-side run-length grouping, continued: while the section stays `c`,
append links; at a change, close the group and open the next run; close the
last group at the end. -/
def expectedAux : String → List (String × DocInfo) → List String
  | _, [] => [closeDivStr]
  | c, (title, info) :: rest =>
    if info.sec = c then navLinkStr info.id title :: expectedAux c rest
    else closeDivStr :: (runOpenItems title info ++ expectedAux info.sec rest)

/-- Spec-side navigation markup: exactly one group per maximal contiguous
run of equal section value, containing that run's links in corpus order. -/
def expectedItems : List (String × DocInfo) → List String
  | [] => []
  | (title, info) :: rest => runOpenItems title info ++ expectedAux info.sec rest

/-! ### The embedded `PAGES` block (`json.dumps(..., ensure_ascii=False)`) -/

def hexDigit (n : Nat) : Char :=
  if n < 10 then Char.ofNat ('0'.toNat + n) else Char.ofNat ('a'.toNat + n - 10)

/-- Character escaping of Python `json.dumps` with `ensure_ascii=False`:
escape the quote, the backslash and control characters; everything else —
including `/` and `<` — passes through verbatim. -/
def jsonEscChar (c : Char) : List Char :=
  if c = '"' then ['\\', '"']
  else if c = '\\' then ['\\', '\\']
  else if c = '\n' then ['\\', 'n']
  else if c = '\t' then ['\\', 't']
  else if c = '\r' then ['\\', 'r']
  else if c = '\x08' then ['\\', 'b']
  else if c = '\x0c' then ['\\', 'f']
  else if c.toNat < 32 then
    ['\\', 'u', '0', '0', hexDigit (c.toNat / 16), hexDigit (c.toNat % 16)]
  else [c]

def jsonStr (s : String) : String :=
  "\"" ++ (⟨s.data.foldr (fun c acc => jsonEscChar c ++ acc) []⟩ : String) ++ "\""

def joinSep (sep : String) : List String → String
  | [] => ""
  | [s] => s
  | s :: rest => s ++ sep ++ joinSep sep rest

def pagesJsonEntry (p : String × DocInfo) : String :=
  jsonStr p.1 ++ ": \x7b\"id\": " ++ jsonStr p.2.id ++ ", \"content\": " ++
    jsonStr p.2.content ++ "\x7d"

/-- The serialized PageCorpus data block: `json.dumps({title: {'id': …,
'content': …} for …}, ensure_ascii=False)`, embedded as `const PAGES = …;`. -/
def pagesJson (docs : List (String × DocInfo)) : String :=
  "\x7b" ++ joinSep ", " (docs.map pagesJsonEntry) ++ "\x7d"

/-- Executable substring test (used to exhibit an unneutralized
script-closing sequence in the embedded data block). -/
def containsSub (needle : List Char) : List Char → Bool
  | [] => needle.isEmpty
  | c :: rest => needle.isPrefixOf (c :: rest) || containsSub needle rest

/-! ### The page router (`loadPage`, hashchange, initial load) -/

/-- One value of the `PAGES` object: `{id, content}`. -/
structure Page where
  id : String
  content : String
deriving Repr, DecidableEq

/-- `Object.values(PAGES)` in insertion (corpus) order. -/
def pagesOfDocs (docs : List (String × DocInfo)) : List Page :=
  docs.map (fun p => { id := p.2.id, content := p.2.content })

/-- The observable viewer state touched by `loadPage`: the rendered content
element, the highlighted nav link (the code tracks the active page through
it), the scroll position and the location hash. -/
structure Viewer where
  displayedContent : String
  activeNav : Option String
  scrollY : Nat
  locationHash : String
deriving Repr, DecidableEq

/-- The spec's `ViewerState.activePageId`: the code represents it as the
`data-page` of the single highlighted nav link. -/
def Viewer.activePageId (v : Viewer) : Option String := v.activeNav

def initViewer : Viewer :=
  { displayedContent := "", activeNav := none, scrollY := 0, locationHash := "" }

/-- `loadPage(pageId)`: find the page by id over `Object.values(PAGES)`;
on a miss only log and return (no state change); on a hit render the
markdown, replace the content, move the nav highlight, reset the scroll and
set the location hash. -/
def loadPage (pages : List Page) (pageId : String) (v : Viewer) : Viewer :=
  match pages.find? (fun p => p.id == pageId) with
  | none => v
  | some p =>
    { displayedContent := parseMarkdown p.content
      activeNav := some pageId
      scrollY := 0
      locationHash := pageId }

/-- The `hashchange` listener: `if (hash) loadPage(hash)` with the leading
`#` already stripped. -/
def onHashChange (pages : List Page) (newHash : String) (v : Viewer) : Viewer :=
  if newHash ≠ "" then loadPage pages newHash v else v

/-- `Object.values(PAGES)[0].id` (only meaningful on a nonempty corpus; the
artifact is only built with at least one fragment). -/
def firstPageId : List Page → String
  | [] => ""
  | p :: _ => p.id

/-- The initial-load sequence: `loadPage(initialHash || firstPageId)` —
the JS `||` takes the first page exactly when the hash is empty. -/
def initialLoad (pages : List Page) (hash : String) (v : Viewer) : Viewer :=
  loadPage pages (if hash = "" then firstPageId pages else hash) v

/-- The three externally triggerable router events: nav-link click,
location-hash change, initial load. -/
inductive RouterEvent where
  | click (pageId : String)
  | hashChange (newHash : String)
  | initial (hash : String)

def handleEvent (pages : List Page) (v : Viewer) (e : RouterEvent) : Viewer :=
  match e with
  | .click pageId => loadPage pages pageId v
  | .hashChange newHash => onHashChange pages newHash v
  | .initial hash => initialLoad pages hash v

def runEvents (pages : List Page) (es : List RouterEvent) : Viewer :=
  es.foldl (handleEvent pages) initViewer

/-- The viewer state after a successful `loadPage` of page `p`. -/
def pageView (p : Page) : Viewer :=
  { displayedContent := parseMarkdown p.content
    activeNav := some p.id
    scrollY := 0
    locationHash := p.id }

/-! ## Helper lemmas -/

theorem strAppendAssoc (a b c : String) : a ++ b ++ c = a ++ (b ++ c) := by
  cases a
  cases b
  cases c
  exact congrArg String.mk (List.append_assoc _ _ _)

theorem strAppendNil (a : String) : a ++ "" = a := by
  cases a
  exact congrArg String.mk (List.append_nil _)

theorem loadPage_cases (pages : List Page) (pageId : String) (v : Viewer) :
    loadPage pages pageId v = v ∨
      ∃ p, p ∈ pages ∧ p.id = pageId ∧ loadPage pages pageId v = pageView p := by
  cases hf : pages.find? (fun p => p.id == pageId) with
  | none => exact Or.inl (by simp [loadPage, hf])
  | some p =>
    have hid : p.id = pageId := by
      have := List.find?_some hf
      exact eq_of_beq this
    refine Or.inr ⟨p, List.mem_of_find?_eq_some hf, hid, ?_⟩
    subst hid
    simp [loadPage, hf, pageView]

theorem handleEvent_cases (pages : List Page) (v : Viewer) (e : RouterEvent) :
    handleEvent pages v e = v ∨ ∃ p, p ∈ pages ∧ handleEvent pages v e = pageView p := by
  cases e with
  | click pageId =>
    rcases loadPage_cases pages pageId v with h | ⟨p, hp, _, h⟩
    · exact Or.inl h
    · exact Or.inr ⟨p, hp, h⟩
  | hashChange newHash =>
    simp only [handleEvent, onHashChange]
    split
    · rcases loadPage_cases pages newHash v with h | ⟨p, hp, _, h⟩
      · exact Or.inl h
      · exact Or.inr ⟨p, hp, h⟩
    · exact Or.inl rfl
  | initial hash =>
    rcases loadPage_cases pages (if hash = "" then firstPageId pages else hash) v with
      h | ⟨p, hp, _, h⟩
    · exact Or.inl h
    · exact Or.inr ⟨p, hp, h⟩

theorem foldlEvents_cases (pages : List Page) :
    ∀ (es : List RouterEvent) (v : Viewer),
      es.foldl (handleEvent pages) v = v ∨
        ∃ p, p ∈ pages ∧ es.foldl (handleEvent pages) v = pageView p := by
  intro es
  induction es with
  | nil => exact fun v => Or.inl rfl
  | cons e rest ih =>
    intro v
    simp only [List.foldl_cons]
    rcases handleEvent_cases pages v e with he | ⟨p, hp, he⟩
    · rw [he]
      exact ih v
    · rw [he]
      rcases ih (pageView p) with h2 | ⟨q, hq, h2⟩
      · exact Or.inr ⟨p, hp, h2⟩
      · exact Or.inr ⟨q, hq, h2⟩

/-! ## Claims -/

/-- C6: `activate` (`loadPage`) with a page id absent from the corpus is a
silent no-op: the whole viewer state (rendered content, nav highlight,
scroll position, location hash — hence `activePageId`) is returned exactly
as it was.  The embedding is a total function, so no exception is possible
on this path. -/
theorem c6_activate_unknown_is_noop (pages : List Page) (pageId : String) (v : Viewer)
    (h : pages.find? (fun p => p.id == pageId) = none) :
    loadPage pages pageId v = v := by
  simp [loadPage, h]

theorem c6_witness :
    ([⟨"a", "hi"⟩] : List Page).find? (fun p => p.id == "zzz") = none ∧
      loadPage [⟨"a", "hi"⟩] "zzz" initViewer = initViewer :=
  ⟨by decide, c6_activate_unknown_is_noop [⟨"a", "hi"⟩] "zzz" initViewer (by decide)⟩

/-- C2 counterexample: with the one-page corpus `[{id := "a"}]` and the
non-empty unknown starting hash `"zzz"`, `initialLoad` leaves the viewer
untouched — in particular it does not activate the first page `"a"` as the
claim requires (`loadPage(initialHash || firstPageId)` only falls back to the
first page when the hash is empty). -/
theorem c2_counterexample :
    initialLoad [⟨"a", "hello"⟩] "zzz" initViewer = initViewer ∧
      (initialLoad [⟨"a", "hello"⟩] "zzz" initViewer).activePageId ≠ some "a" := by
  decide

/-- C2 amended: on a non-empty corpus, `initialLoad` activates the first
page when the hash is empty, activates the named page when the non-empty
hash names a known page id, and is a no-op (activating nothing) when the
non-empty hash names no known page. -/
theorem c2_initialLoad_amended (pages : List Page) (p0 : Page) (hp : pages.head? = some p0)
    (hash : String) (v : Viewer) :
    (hash = "" → initialLoad pages hash v = pageView p0) ∧
    (∀ q : Page, hash ≠ "" → pages.find? (fun p => p.id == hash) = some q →
      initialLoad pages hash v = pageView q) ∧
    (hash ≠ "" → pages.find? (fun p => p.id == hash) = none →
      initialLoad pages hash v = v) := by
  refine ⟨?_, ?_, ?_⟩
  · intro he
    subst he
    cases pages with
    | nil => exact absurd hp (by simp)
    | cons a l =>
      have ha : a = p0 := by simpa using hp
      subst ha
      have hfind : (a :: l).find? (fun p => p.id == a.id) = some a :=
        List.find?_cons_of_pos _ (by simp)
      simp [initialLoad, firstPageId, loadPage, hfind, pageView]
  · intro q hne hfind
    have hb := List.find?_some hfind
    have hid : q.id = hash := eq_of_beq hb
    subst hid
    simp [initialLoad, if_neg hne, loadPage, hfind, pageView]
  · intro hne hfind
    simp [initialLoad, if_neg hne, loadPage, hfind]

theorem c2_witness :
    ([⟨"a", "hi"⟩, ⟨"b", "yo"⟩] : List Page).head? = some ⟨"a", "hi"⟩ ∧
      initialLoad [⟨"a", "hi"⟩, ⟨"b", "yo"⟩] "b" initViewer = pageView ⟨"b", "yo"⟩ :=
  ⟨rfl, (c2_initialLoad_amended [⟨"a", "hi"⟩, ⟨"b", "yo"⟩] ⟨"a", "hi"⟩ rfl "b"
    initViewer).2.1 ⟨"b", "yo"⟩ (by decide) (by decide)⟩

/-- C7 counterexample: two corpus entries with distinct titles but the same
id `"x"`, the first carrying content `"one"` and the second (later in sort
order) `"two"`.  The runtime lookup (`Object.values(PAGES).find`) returns the
*first* match, so the viewer shows the earlier entry's content, and the
emitted corpus still contains the earlier entry's content — contradicting
"the later entry overwrites the earlier one" for duplicate ids. -/
theorem c7_counterexample :
    (loadPage (pagesOfDocs
        [("T1", { id := "x", content := "one", order := 0, sec := "" }),
         ("T2", { id := "x", content := "two", order := 1, sec := "" })])
      "x" initViewer).displayedContent = parseMarkdown "one" ∧
    parseMarkdown "one" ≠ parseMarkdown "two" ∧
    containsSub "\"content\": \"one\"".data (pagesJson
        [("T1", { id := "x", content := "one", order := 0, sec := "" }),
         ("T2", { id := "x", content := "two", order := 1, sec := "" })]).data = true := by
  decide

/-- C7 amended: duplicate *titles* (dictionary keys) are resolved at
insertion time — the later `docs[key] = …` assignment overwrites the earlier
value (last-written-wins, which is insertion order, not sort order); but
duplicate *ids* under distinct titles both remain in the corpus, and the
runtime page lookup observes the entry that comes first in corpus (sort)
order. -/
theorem c7_duplicates_amended :
    (∀ (m : List (String × DocInfo)) (k : String) (a b : DocInfo),
      pyDictLookup (pyDictInsert (pyDictInsert m k a) k b) k = some b) ∧
    (∀ (l1 l2 : List Page) (p : Page) (v : Viewer),
      (∀ q ∈ l1, (q.id == p.id) = false) →
      loadPage (l1 ++ p :: l2) p.id v = pageView p) := by
  constructor
  · intro m k a b
    induction m with
    | nil => simp [pyDictInsert, pyDictLookup]
    | cons x rest ih =>
      obtain ⟨k1, v1⟩ := x
      by_cases hk : k1 = k
      · subst hk
        simp [pyDictInsert, pyDictLookup]
      · simp [pyDictInsert, pyDictLookup, hk, ih]
  · intro l1 l2 p v h
    have hfind : (l1 ++ p :: l2).find? (fun q => q.id == p.id) = some p := by
      induction l1 with
      | nil => exact List.find?_cons_of_pos _ (by simp)
      | cons a l ih =>
        have ha : (a.id == p.id) = false := h a (List.mem_cons_self _ _)
        have hl : ∀ q ∈ l, (q.id == p.id) = false :=
          fun q hq => h q (List.mem_cons_of_mem _ hq)
        simp only [List.cons_append, List.find?, ha]
        exact ih hl
    simp [loadPage, hfind, pageView]

theorem c7_witness :
    loadPage [⟨"a", "A"⟩, ⟨"x", "two"⟩, ⟨"x", "three"⟩] "x" initViewer =
      pageView ⟨"x", "two"⟩ :=
  c7_duplicates_amended.2 [⟨"a", "A"⟩] [⟨"x", "three"⟩] ⟨"x", "two"⟩ initViewer (by decide)

/-- C9: every `loadPage` call either performs the complete update for a
known page (content rendered from that page, nav highlight, scroll reset and
hash all set to its id) or leaves the viewer untouched; consequently after
any sequence of click / hashchange / initial-load events the viewer is
either still pristine or displays some page of the corpus — the active page
id always names a known page. -/
theorem c9_router_state_invariant (pages : List Page) :
    (∀ (pageId : String) (v : Viewer),
      loadPage pages pageId v = v ∨
        ∃ p, p ∈ pages ∧ p.id = pageId ∧ loadPage pages pageId v = pageView p) ∧
    (∀ es : List RouterEvent,
      runEvents pages es = initViewer ∨
        ∃ p, p ∈ pages ∧ runEvents pages es = pageView p) :=
  ⟨fun pageId v => loadPage_cases pages pageId v,
   fun es => foldlEvents_cases pages es initViewer⟩

/-- C4: the serialized PageCorpus block is *not* script-safe: a fragment
whose content contains the literal sequence `</script>` is embedded verbatim
by `json.dumps(..., ensure_ascii=False)` (which escapes only quotes,
backslashes and control characters, never `/` or `<`), so the emitted
`const PAGES = …` block contains `</script>` and prematurely closes the
enclosing script context. -/
theorem c4_script_close_not_neutralized :
    containsSub "</script>".data (pagesJson
      [("Doc", { id := "doc", content := "</script><script>alert(1)</script>",
                 order := 0, sec := "" })]).data = true := by
  decide

theorem splitDD_eq_none (cs : List Char) (h : '*' ∉ cs) : splitDD cs = none := by
  induction cs with
  | nil => rfl
  | cons c rest ih =>
    cases rest with
    | nil => rfl
    | cons d rest2 =>
      have hc : c ≠ '*' := fun he => h (he ▸ List.mem_cons_self _ _)
      have ht : '*' ∉ d :: rest2 := fun hm => h (List.mem_cons_of_mem _ hm)
      simp only [splitDD]
      rw [if_neg (fun hcd => hc hcd.1), ih ht]
      rfl

theorem boldAux_eq_self (fuel : Nat) (cs : List Char) (h : '*' ∉ cs) :
    boldAux fuel cs = cs := by
  cases fuel with
  | zero => rfl
  | succ n =>
    simp only [boldAux]
    rw [splitDD_eq_none cs h]

theorem italicAux_eq_self (fuel : Nat) (cs : List Char) (h : '*' ∉ cs) :
    italicAux fuel cs = cs := by
  induction cs generalizing fuel with
  | nil => cases fuel <;> rfl
  | cons c rest ih =>
    cases fuel with
    | zero => rfl
    | succ n =>
      have hc : ¬(c = '*') := fun he => h (he ▸ List.mem_cons_self _ _)
      have ht : '*' ∉ rest := fun hm => h (List.mem_cons_of_mem _ hm)
      simp only [italicAux]
      rw [if_neg hc, ih n ht]

theorem codeAux_eq_self (fuel : Nat) (cs : List Char) (h : '`' ∉ cs) :
    codeAux fuel cs = cs := by
  induction cs generalizing fuel with
  | nil => cases fuel <;> rfl
  | cons c rest ih =>
    cases fuel with
    | zero => rfl
    | succ n =>
      have hc : ¬(c = '`') := fun he => h (he ▸ List.mem_cons_self _ _)
      have ht : '`' ∉ rest := fun hm => h (List.mem_cons_of_mem _ hm)
      simp only [codeAux]
      rw [if_neg hc, ih n ht]

theorem linkAux_eq_self (fuel : Nat) (cs : List Char) (h : '[' ∉ cs) :
    linkAux fuel cs = cs := by
  induction cs generalizing fuel with
  | nil => cases fuel <;> rfl
  | cons c rest ih =>
    cases fuel with
    | zero => rfl
    | succ n =>
      have hc : ¬(c = '[') := fun he => h (he ▸ List.mem_cons_self _ _)
      have ht : '[' ∉ rest := fun hm => h (List.mem_cons_of_mem _ hm)
      simp only [linkAux]
      rw [if_neg hc, ih n ht]

theorem processInlineMarkdown_eq_self (s : String)
    (h1 : '*' ∉ s.data) (h2 : '`' ∉ s.data) (h3 : '[' ∉ s.data) :
    processInlineMarkdown s = s := by
  show (⟨processInlineMarkdownL s.data⟩ : String) = s
  simp only [processInlineMarkdownL]
  rw [boldAux_eq_self _ _ h1, italicAux_eq_self _ _ h1, codeAux_eq_self _ _ h2,
    linkAux_eq_self _ _ h3]

/-- C3 counterexample: the code keeps the `\w` class — which contains the
underscore — so `makeId "a_b"` is `"a_b"`, while the claim's character class
(letter, digit, existing hyphen, whitespace) deletes the underscore and
yields `"ab"`. -/
theorem c3_counterexample :
    makeId "a_b" = "a_b" ∧ makeIdClaimed "a_b" = "ab" ∧
      makeId "a_b" ≠ makeIdClaimed "a_b" := by
  decide

/-- C3 amended: the anchor identifier equals the result of lower-casing,
deleting every character that is not a letter, digit, underscore, existing
hyphen, or whitespace, collapsing each whitespace run to a single hyphen and
trimming leading/trailing hyphens; both quoted examples evaluate to
`getting-started`. -/
theorem c3_makeId_amended :
    (∀ s : String, makeId s = makeIdAmended s) ∧
      makeId "Getting Started!" = "getting-started" ∧
      makeId "getting   started" = "getting-started" := by
  refine ⟨fun s => ?_, by decide, by decide⟩
  show (⟨makeIdL s.data⟩ : String) = makeIdAmended s
  simp only [makeIdL, makeIdAmended]
  congr 3
  apply List.filter_congr
  intro a _
  unfold isWordChar
  cases ha : a.isAlpha <;> cases hd : a.isDigit <;> cases hu : (a == '_') <;>
    cases hh : (a == '-') <;> cases hs : isJsSpace a <;> simp [ha, hd, hu, hh, hs]

/-- C10: outside fenced code the renderer never HTML-escapes: inline
formatting is the only rewriting, so any text free of the four delimiter
characters — in particular text containing `<`, `>` or `&` — passes through
`processInlineMarkdown` verbatim into headings, paragraphs, list items,
blockquotes and inline-code elements; only fenced content goes through
`escapeHtml`. -/
theorem c10_no_html_escaping_outside_fences :
    (∀ s : String, '*' ∉ s.data → '`' ∉ s.data → '[' ∉ s.data →
      processInlineMarkdown s = s) ∧
    parseMarkdown "a <b>&</b>" = "<p>a <b>&</b></p>\n" ∧
    parseMarkdown "# A < B" = "<h1 class=\"section-anchor\" id=\"a-b\">A < B</h1>\n" ∧
    parseMarkdown "- x & y" = "<ul>\n<li>x & y</li>\n</ul>\n" ∧
    parseMarkdown "> a < b" = "<blockquote>a < b</blockquote>\n" ∧
    parseMarkdown "`<b>`" = "<p><code><b></code></p>\n" ∧
    parseMarkdown "```\n<&>\n```" = "<pre><code>&lt;&amp;&gt;\n</code></pre>\n" :=
  ⟨processInlineMarkdown_eq_self, by decide, by decide, by decide, by decide,
    by decide, by decide⟩

theorem c10_witness :
    '*' ∉ "x < y & z".data ∧ processInlineMarkdown "x < y & z" = "x < y & z" :=
  ⟨by decide,
   c10_no_html_escaping_outside_fences.1 "x < y & z" (by decide) (by decide) (by decide)⟩

theorem renderFinalize_eq (st : RState) :
    renderFinalize st = st.html ++
      (if st.inList ∧ st.listContent ≠ "" then
        "<ul>\n" ++ st.listContent ++ "</ul>\n"
      else "") ++
      (if st.inBlockquote ∧ st.blockquoteContent ≠ "" then
        "<blockquote>" ++ processInlineMarkdown (jsTrim st.blockquoteContent) ++
          "</blockquote>\n"
      else "") := by
  unfold renderFinalize flushList flushBlockquote
  split_ifs <;> simp only [strAppendAssoc, strAppendNil]

/-- C8: at end of input the renderer flushes a still-open list or blockquote
accumulator into the output (first conjuncts: the epilogue is exactly the
two flushes, and its value is the pending html plus the flushed list and
blockquote), while an open code fence is never read by the epilogue — the
accumulated fence buffer is dropped (the output is invariant under changing
it).  The renderer is a total function, so it returns on every input; the
closing concrete cases exhibit an end-flushed list, a dropped unterminated
fence, and an end-flushed blockquote. -/
theorem c8_end_of_input_flush :
    (∀ md : String, parseMarkdown md = renderFinalize ((splitLines md).foldl step initRS)) ∧
    (∀ (st : RState) (c : String),
      renderFinalize { st with codeBlockContent := c } = renderFinalize st) ∧
    (∀ st : RState, renderFinalize st = st.html ++
      (if st.inList ∧ st.listContent ≠ "" then
        "<ul>\n" ++ st.listContent ++ "</ul>\n"
      else "") ++
      (if st.inBlockquote ∧ st.blockquoteContent ≠ "" then
        "<blockquote>" ++ processInlineMarkdown (jsTrim st.blockquoteContent) ++
          "</blockquote>\n"
      else "")) ∧
    parseMarkdown "- a" = "<ul>\n<li>a</li>\n</ul>\n" ∧
    parseMarkdown "```\nlost content" = "" ∧
    parseMarkdown "> q" = "<blockquote>q</blockquote>\n" :=
  ⟨fun _ => rfl, fun st c => by simp [renderFinalize_eq], renderFinalize_eq, by decide,
    by decide, by decide⟩

/-- C5 counterexample: the line `"#foo"` is non-blank and matches none of
the fence, heading (which all require a space after the hashes), horizontal
rule, blockquote, or list-item-start rules, yet while a list is open it is
*not* treated as a continuation: the code's extra `!line.startsWith('#')`
guard routes it to the paragraph rule, closing the list — whereas the
otherwise identical plain line `"bar"` is appended into the open item. -/
theorem c5_counterexample :
    startsWithS "#foo" "```" = false ∧
    startsWithS "#foo" "# " = false ∧ startsWithS "#foo" "## " = false ∧
    startsWithS "#foo" "### " = false ∧ startsWithS "#foo" "#### " = false ∧
    (jsTrim "#foo" == "---") = false ∧ startsWithS "#foo" "> " = false ∧
    startsWithS "#foo" "- " = false ∧ startsWithS "#foo" "* " = false ∧
    (jsTrim "#foo" == "") = false ∧
    parseMarkdown "- a\n#foo" = "<ul>\n<li>a</li>\n</ul>\n<p>#foo</p>\n" ∧
    parseMarkdown "- a\nbar" = "<ul>\n<li>a bar</li>\n</ul>\n" := by
  decide

/-- C5 amended: while list mode is open, a non-blank line that matches none
of rules 1–5 *and does not begin with the character `#`* is treated as a
continuation of the last list item: the trailing-whitespace-trimmed buffer
is spliced open at its final `</li>` and the line's inline-formatted text is
appended space-separated inside that boundary; when the trimmed buffer does
not end in `</li>` the continuation is dropped (the buffer merely loses its
trailing whitespace).  Nothing else in the state changes. -/
theorem c5_list_continuation_amended (st : RState) (line : String)
    (hcode : st.inCodeBlock = false) (hlist : st.inList = true)
    (hfence : startsWithS line "```" = false)
    (hh1 : startsWithS line "# " = false) (hh2 : startsWithS line "## " = false)
    (hh3 : startsWithS line "### " = false) (hh4 : startsWithS line "#### " = false)
    (hhr : jsTrim line ≠ "---")
    (hbq : startsWithS line "> " = false)
    (hli1 : startsWithS line "- " = false) (hli2 : startsWithS line "* " = false)
    (hblank : jsTrim line ≠ "")
    (hhash : startsWithS line "#" = false) :
    step st line =
      if endsWithS (jsTrimEnd st.listContent) "</li>" then
        { st with listContent := dropRightS (jsTrimEnd st.listContent) 5 ++ " " ++
            processInlineMarkdown (jsTrim line) ++ "</li>\n" }
      else
        { st with listContent := jsTrimEnd st.listContent } := by
  simp [step, beq_iff_eq, hcode, hlist, hfence, hh1, hh2, hh3, hh4, hhr, hbq,
    hli1, hli2, hblank, hhash]

theorem c5_witness :
    step { initRS with inList := true, listContent := "<li>a</li>\n" } "more" =
      if endsWithS (jsTrimEnd "<li>a</li>\n") "</li>" then
        { { initRS with inList := true, listContent := "<li>a</li>\n" } with
            listContent := dropRightS (jsTrimEnd "<li>a</li>\n") 5 ++ " " ++
              processInlineMarkdown (jsTrim "more") ++ "</li>\n" }
      else
        { { initRS with inList := true, listContent := "<li>a</li>\n" } with
            listContent := jsTrimEnd "<li>a</li>\n" } :=
  c5_list_continuation_amended { initRS with inList := true, listContent := "<li>a</li>\n" }
    "more" rfl rfl (by decide) (by decide) (by decide) (by decide) (by decide)
    (by decide) (by decide) (by decide) (by decide) (by decide) (by decide)

theorem navAuxGo_eq_expectedAux :
    ∀ (docs : List (String × DocInfo)) (c cSpec : String),
      (∀ x ∈ docs, x.2.sec ≠ "" ∧ x.2.sec ≠ "main") → c ≠ "" →
      (∀ s : String, s ≠ "" → s ≠ "main" → (s = c ↔ s = cSpec)) →
      navAuxGo (some c) docs = expectedAux cSpec docs := by
  intro docs
  induction docs with
  | nil =>
    intro c cSpec _ hc _
    simp [navAuxGo, expectedAux, hc]
  | cons x rest ih =>
    intro c cSpec hall hc hiff
    obtain ⟨title, info⟩ := x
    obtain ⟨hs1, hs2⟩ := hall (title, info) (List.mem_cons_self _ _)
    have hallRest : ∀ x ∈ rest, x.2.sec ≠ "" ∧ x.2.sec ≠ "main" :=
      fun x hx => hall x (List.mem_cons_of_mem _ hx)
    by_cases hsec : info.sec = c
    · have hcs : info.sec = cSpec := (hiff info.sec hs1 hs2).mp hsec
      have hn1 : ¬(info.sec ≠ "" ∧ (some c : Option String) ≠ some info.sec) :=
        fun hcon => hcon.2 (by rw [hsec])
      have hn2 : ¬(info.sec = "" ∧ (some c : Option String) ≠ none) :=
        fun hcon => hs1 hcon.1
      have hn3 : ¬(info.sec = "" ∧ (some c : Option String) = none) :=
        fun hcon => hs1 hcon.1
      simp only [navAuxGo, expectedAux]
      rw [if_neg hn1, if_neg hn2, if_neg hn3, if_pos hcs,
        ih c cSpec hallRest hc hiff]
    · have hcs : info.sec ≠ cSpec := fun he => hsec ((hiff info.sec hs1 hs2).mpr he)
      have hp1 : info.sec ≠ "" ∧ (some c : Option String) ≠ some info.sec :=
        ⟨hs1, fun he => hsec (Option.some.inj he).symm⟩
      simp only [navAuxGo, expectedAux]
      rw [if_pos hp1, if_neg hcs,
        ih info.sec info.sec hallRest hs1 (fun _ _ _ => Iff.rfl)]
      simp [runOpenItems, hs1]

/-- C1 counterexample: three section-less fragments form a single maximal
run, but the assembler's loop alternates — it opens an anonymous group for
the first entry, closes it at the second entry (whose link lands outside any
group) and opens a fresh group at the third — yielding two groups for one
run, and not the single three-entry group the claim requires. -/
theorem c1_counterexample :
    groupCount (navItems
      [("A", { id := "a", content := "", order := 0, sec := "" }),
       ("B", { id := "b", content := "", order := 0, sec := "" }),
       ("C", { id := "c", content := "", order := 0, sec := "" })]) = 2 ∧
    runCount (docSections
      [("A", { id := "a", content := "", order := 0, sec := "" }),
       ("B", { id := "b", content := "", order := 0, sec := "" }),
       ("C", { id := "c", content := "", order := 0, sec := "" })]) = 1 ∧
    navItems
      [("A", { id := "a", content := "", order := 0, sec := "" }),
       ("B", { id := "b", content := "", order := 0, sec := "" }),
       ("C", { id := "c", content := "", order := 0, sec := "" })] ≠
    expectedItems
      [("A", { id := "a", content := "", order := 0, sec := "" }),
       ("B", { id := "b", content := "", order := 0, sec := "" }),
       ("C", { id := "c", content := "", order := 0, sec := "" })] := by
  decide

/-- C1 amended: the run-length grouping holds for every sorted corpus in
which each entry after the first carries a section label that is neither
empty nor the literal string `"main"` (the sentinel the loop stores for an
anonymous group): the emitted navigation markup then equals exactly one
group per maximal contiguous run of equal section value — group opening,
title div when the run is sectioned, the run's links in corpus order, and a
closing — so boundaries fall exactly where the section value changes. -/
theorem c1_nav_run_grouping_amended (hd : String × DocInfo)
    (rest : List (String × DocInfo))
    (h : ∀ x ∈ rest, x.2.sec ≠ "" ∧ x.2.sec ≠ "main") :
    navItems (hd :: rest) = expectedItems (hd :: rest) := by
  obtain ⟨title, info⟩ := hd
  by_cases hsec : info.sec = ""
  · have hn1 : ¬(info.sec ≠ "" ∧ (none : Option String) ≠ some info.sec) :=
      fun hcon => hcon.1 hsec
    have hn2 : ¬(info.sec = "" ∧ (none : Option String) ≠ none) :=
      fun hcon => hcon.2 rfl
    have hp3 : info.sec = "" ∧ (none : Option String) = none := ⟨hsec, rfl⟩
    have hiff : ∀ s : String, s ≠ "" → s ≠ "main" → (s = "main" ↔ s = "") :=
      fun s h1 h2 => ⟨fun hm => absurd hm h2, fun he => absurd he h1⟩
    simp only [navItems, navAuxGo, expectedItems]
    rw [if_neg hn1, if_neg hn2, if_pos (show info.sec = "" ∧ True from ⟨hsec, trivial⟩),
      navAuxGo_eq_expectedAux rest "main" "" h (by decide) hiff]
    simp [runOpenItems, hsec]
  · have hp1 : info.sec ≠ "" ∧ (none : Option String) ≠ some info.sec :=
      ⟨hsec, fun he => Option.noConfusion he⟩
    simp only [navItems, navAuxGo, expectedItems]
    rw [if_pos hp1,
      navAuxGo_eq_expectedAux rest info.sec info.sec h hsec (fun _ _ _ => Iff.rfl)]
    simp [runOpenItems, hsec]

theorem c1_witness :
    navItems (("Language Reference",
        { id := "language-reference", content := "", order := 0, sec := "" }) ::
      [("Getting Started → Install",
         { id := "gs-install", content := "", order := 1, sec := "Getting Started" }),
       ("Getting Started → Basics",
         { id := "gs-basics", content := "", order := 1, sec := "Getting Started" }),
       ("Reference → API",
         { id := "ref-api", content := "", order := 4, sec := "Reference" })]) =
    expectedItems (("Language Reference",
        { id := "language-reference", content := "", order := 0, sec := "" }) ::
      [("Getting Started → Install",
         { id := "gs-install", content := "", order := 1, sec := "Getting Started" }),
       ("Getting Started → Basics",
         { id := "gs-basics", content := "", order := 1, sec := "Getting Started" }),
       ("Reference → API",
         { id := "ref-api", content := "", order := 4, sec := "Reference" })]) :=
  c1_nav_run_grouping_amended
      ("Language Reference",
        { id := "language-reference", content := "", order := 0, sec := "" })
      [("Getting Started → Install",
         { id := "gs-install", content := "", order := 1, sec := "Getting Started" }),
       ("Getting Started → Basics",
         { id := "gs-basics", content := "", order := 1, sec := "Getting Started" }),
       ("Reference → API",
         { id := "ref-api", content := "", order := 4, sec := "Reference" })]
      (by decide)

end BuildDocs

